import Mathlib

/-!
# Verification of the ProgressPill animation core (src/ProgressPill.jsx)

Shallow embedding of the color interpolator, the per-frame easing tick,
the day-backward crossfade machine, the path sampler and the label
transition machine, together with theorems settling the specification
claims about them.

Conventions: JavaScript numbers are modelled as `ℚ` where the source only
performs field operations and comparisons on them, and as `ℝ` where the
source calls `Math.exp`.  `Math.round` is modelled by `jsRound`
(round half up, as in JS).  A JS division whose denominator is `0`
produces `NaN`/`Infinity`; such divisions are modelled by `jsDiv`
returning `none`.
-/

namespace ProgressPill

/-- An RGB color: three integer channels, as in the source palettes. -/
abbrev RGB : Type := ℤ × ℤ × ℤ

/-- JS `Math.round`: round half towards positive infinity,
`Math.round x = ⌊x + 0.5⌋`. -/
def jsRound (q : ℚ) : ℤ := ⌊q + 1/2⌋

/-- The smoothstep polynomial `f * f * (3 - 2 * f)` from `lerpColors`. -/
def smoothstep (f : ℚ) : ℚ := f * f * (3 - 2 * f)

/-- The three band boundaries `[0.25, 0.5, 0.75]` from `lerpColors`. -/
def boundaries : Fin 3 → ℚ
  | 0 => 1/4
  | 1 => 1/2
  | 2 => 3/4

/-- `halfTrans = 0.035`: half-width of each color transition window. -/
def halfTrans : ℚ := 7/200

/-- Component-wise linear blend of two RGB colors with weight `s`,
each channel rounded as in
`palette[b].map((v, k) => Math.round(v + (palette[b+1][k] - v) * s))`. -/
def blendRGB (a b : RGB) (s : ℚ) : RGB :=
  (jsRound ((a.1 : ℚ) + ((b.1 : ℚ) - (a.1 : ℚ)) * s),
   jsRound ((a.2.1 : ℚ) + ((b.2.1 : ℚ) - (a.2.1 : ℚ)) * s),
   jsRound ((a.2.2 : ℚ) + ((b.2.2 : ℚ) - (a.2.2 : ℚ)) * s))

/-- One iteration of the `for (let b = 0; ...)` loop body of `lerpColors`:
given the accumulator `c`, either overwrite it with the next palette
entry (`t` past the window), a smoothstep blend (`t` inside the window),
or keep it. -/
def lerpIter (palette : Fin 4 → RGB) (t : ℚ) (b : Fin 3) (c : RGB) : RGB :=
  if boundaries b + halfTrans < t then palette b.succ
  else if boundaries b - halfTrans < t then
    blendRGB (palette b.castSucc) (palette b.succ)
      (smoothstep ((t - (boundaries b - halfTrans)) / (2 * halfTrans)))
  else c

/-- `lerpColors(palette, t)` from the source: fold the loop body over the
three boundaries, starting from `palette[0]`. -/
def lerpColors (palette : Fin 4 → RGB) (t : ℚ) : RGB :=
  (List.finRange 3).foldl (fun c b => lerpIter palette t b c) (palette 0)

/-- `TRACK_RGB`: the four track stroke colors. -/
def TRACK_RGB : Fin 4 → RGB
  | 0 => (249, 174, 119)
  | 1 => (236, 203, 96)
  | 2 => (146, 191, 219)
  | 3 => (196, 185, 224)

/-- `BG_RGB`: the four dot fill colors. -/
def BG_RGB : Fin 4 → RGB
  | 0 => (255, 231, 206)
  | 1 => (250, 238, 198)
  | 2 => (225, 236, 235)
  | 3 => (240, 234, 236)

/-- Reference definition of the color interpolator, transcribed from the
specification's words: if `t` is within `±0.035` of a boundary
(0.25, 0.5, 0.75), blend the two adjacent palette entries with
smoothstep weight over the local fraction of the `0.07`-wide window;
otherwise return the palette entry of the band `t` falls fully within. -/
def colorAtSpec (palette : Fin 4 → RGB) (t : ℚ) : RGB :=
  if 1/4 - 7/200 ≤ t ∧ t ≤ 1/4 + 7/200 then
    blendRGB (palette 0) (palette 1) (smoothstep ((t - (1/4 - 7/200)) / (7/100)))
  else if 1/2 - 7/200 ≤ t ∧ t ≤ 1/2 + 7/200 then
    blendRGB (palette 1) (palette 2) (smoothstep ((t - (1/2 - 7/200)) / (7/100)))
  else if 3/4 - 7/200 ≤ t ∧ t ≤ 3/4 + 7/200 then
    blendRGB (palette 2) (palette 3) (smoothstep ((t - (3/4 - 7/200)) / (7/100)))
  else if t < 1/4 then palette 0
  else if t < 1/2 then palette 1
  else if t < 3/4 then palette 2
  else palette 3

theorem lerpColors_unfold (palette : Fin 4 → RGB) (t : ℚ) :
    lerpColors palette t =
      lerpIter palette t 2 (lerpIter palette t 1 (lerpIter palette t 0 (palette 0))) := rfl

theorem jsRound_intCast (v : ℤ) : jsRound (v : ℚ) = v := by
  unfold jsRound
  rw [Int.floor_int_add]
  norm_num

theorem blendRGB_zero (a b : RGB) : blendRGB a b 0 = a := by
  unfold blendRGB
  simp only [mul_zero, add_zero]
  rw [jsRound_intCast, jsRound_intCast, jsRound_intCast]

theorem boundaries_zero : boundaries 0 = 1/4 := rfl
theorem boundaries_one : boundaries 1 = 1/2 := rfl
theorem boundaries_two : boundaries 2 = 3/4 := rfl

theorem lerpIter_past {t : ℚ} (palette : Fin 4 → RGB) (b : Fin 3) (c : RGB)
    (h : boundaries b + halfTrans < t) : lerpIter palette t b c = palette b.succ := by
  unfold lerpIter
  rw [if_pos h]

theorem lerpIter_blend {t : ℚ} (palette : Fin 4 → RGB) (b : Fin 3) (c : RGB)
    (h1 : boundaries b - halfTrans < t) (h2 : t ≤ boundaries b + halfTrans) :
    lerpIter palette t b c =
      blendRGB (palette b.castSucc) (palette b.succ)
        (smoothstep ((t - (boundaries b - halfTrans)) / (2 * halfTrans))) := by
  unfold lerpIter
  rw [if_neg (by linarith), if_pos h1]

theorem lerpIter_keep {t : ℚ} (palette : Fin 4 → RGB) (b : Fin 3) (c : RGB)
    (h : t ≤ boundaries b - halfTrans) : lerpIter palette t b c = c := by
  have hh : (0:ℚ) < halfTrans := by norm_num [halfTrans]
  unfold lerpIter
  rw [if_neg (by linarith), if_neg (by linarith)]

/-- Code evaluation, band 0: `t ≤ 0.215` keeps `palette[0]`. -/
theorem lerpColors_low {t : ℚ} (palette : Fin 4 → RGB) (h : t ≤ 43/200) :
    lerpColors palette t = palette 0 := by
  rw [lerpColors_unfold,
    lerpIter_keep palette 0 _ (by rw [boundaries_zero]; norm_num [halfTrans]; linarith),
    lerpIter_keep palette 1 _ (by rw [boundaries_one]; norm_num [halfTrans]; linarith),
    lerpIter_keep palette 2 _ (by rw [boundaries_two]; norm_num [halfTrans]; linarith)]

/-- Code evaluation, window 0: `0.215 < t ≤ 0.285` blends entries 0 and 1. -/
theorem lerpColors_w0 {t : ℚ} (palette : Fin 4 → RGB) (h1 : 43/200 < t) (h2 : t ≤ 57/200) :
    lerpColors palette t =
      blendRGB (palette 0) (palette 1) (smoothstep ((t - 43/200) / (7/100))) := by
  rw [lerpColors_unfold,
    lerpIter_blend palette 0 _ (by rw [boundaries_zero]; norm_num [halfTrans]; linarith)
      (by rw [boundaries_zero]; norm_num [halfTrans]; linarith),
    lerpIter_keep palette 1 _ (by rw [boundaries_one]; norm_num [halfTrans]; linarith),
    lerpIter_keep palette 2 _ (by rw [boundaries_two]; norm_num [halfTrans]; linarith)]
  norm_num [boundaries_zero, halfTrans]

/-- Code evaluation, band 1: `0.285 < t ≤ 0.465` gives `palette[1]`. -/
theorem lerpColors_band1 {t : ℚ} (palette : Fin 4 → RGB) (h1 : 57/200 < t) (h2 : t ≤ 93/200) :
    lerpColors palette t = palette 1 := by
  rw [lerpColors_unfold,
    lerpIter_past palette 0 _ (by rw [boundaries_zero]; norm_num [halfTrans]; linarith),
    lerpIter_keep palette 1 _ (by rw [boundaries_one]; norm_num [halfTrans]; linarith),
    lerpIter_keep palette 2 _ (by rw [boundaries_two]; norm_num [halfTrans]; linarith)]
  rfl

/-- Code evaluation, window 1: `0.465 < t ≤ 0.535` blends entries 1 and 2. -/
theorem lerpColors_w1 {t : ℚ} (palette : Fin 4 → RGB) (h1 : 93/200 < t) (h2 : t ≤ 107/200) :
    lerpColors palette t =
      blendRGB (palette 1) (palette 2) (smoothstep ((t - 93/200) / (7/100))) := by
  rw [lerpColors_unfold,
    lerpIter_blend palette 1 _ (by rw [boundaries_one]; norm_num [halfTrans]; linarith)
      (by rw [boundaries_one]; norm_num [halfTrans]; linarith),
    lerpIter_keep palette 2 _ (by rw [boundaries_two]; norm_num [halfTrans]; linarith)]
  norm_num [boundaries_one, halfTrans]

/-- Code evaluation, band 2: `0.535 < t ≤ 0.715` gives `palette[2]`. -/
theorem lerpColors_band2 {t : ℚ} (palette : Fin 4 → RGB) (h1 : 107/200 < t) (h2 : t ≤ 143/200) :
    lerpColors palette t = palette 2 := by
  rw [lerpColors_unfold,
    lerpIter_past palette 1 _ (by rw [boundaries_one]; norm_num [halfTrans]; linarith),
    lerpIter_keep palette 2 _ (by rw [boundaries_two]; norm_num [halfTrans]; linarith)]
  rfl

/-- Code evaluation, window 2: `0.715 < t ≤ 0.785` blends entries 2 and 3. -/
theorem lerpColors_w2 {t : ℚ} (palette : Fin 4 → RGB) (h1 : 143/200 < t) (h2 : t ≤ 157/200) :
    lerpColors palette t =
      blendRGB (palette 2) (palette 3) (smoothstep ((t - 143/200) / (7/100))) := by
  rw [lerpColors_unfold,
    lerpIter_blend palette 2 _ (by rw [boundaries_two]; norm_num [halfTrans]; linarith)
      (by rw [boundaries_two]; norm_num [halfTrans]; linarith)]
  norm_num [boundaries_two, halfTrans]
  rfl

/-- Code evaluation, band 3: `0.785 < t` gives `palette[3]`. -/
theorem lerpColors_high {t : ℚ} (palette : Fin 4 → RGB) (h : 157/200 < t) :
    lerpColors palette t = palette 3 := by
  rw [lerpColors_unfold,
    lerpIter_past palette 2 _ (by rw [boundaries_two]; norm_num [halfTrans]; linarith)]
  rfl

/-- Spec-side evaluation: `t < 0.215` gives `palette[0]`. -/
theorem colorAtSpec_low {t : ℚ} (palette : Fin 4 → RGB) (h : t < 43/200) :
    colorAtSpec palette t = palette 0 := by
  unfold colorAtSpec
  rw [if_neg (by rintro ⟨hA, hB⟩; norm_num at hA; linarith),
    if_neg (by rintro ⟨hA, hB⟩; norm_num at hA; linarith),
    if_neg (by rintro ⟨hA, hB⟩; norm_num at hA; linarith),
    if_pos (by linarith)]

/-- Spec-side evaluation: `0.215 ≤ t ≤ 0.285` blends entries 0 and 1. -/
theorem colorAtSpec_w0 {t : ℚ} (palette : Fin 4 → RGB) (h1 : 43/200 ≤ t) (h2 : t ≤ 57/200) :
    colorAtSpec palette t =
      blendRGB (palette 0) (palette 1) (smoothstep ((t - 43/200) / (7/100))) := by
  unfold colorAtSpec
  rw [if_pos (by constructor <;> norm_num <;> linarith)]
  norm_num

/-- Spec-side evaluation: `0.285 < t < 0.465` gives `palette[1]`. -/
theorem colorAtSpec_band1 {t : ℚ} (palette : Fin 4 → RGB) (h1 : 57/200 < t) (h2 : t < 93/200) :
    colorAtSpec palette t = palette 1 := by
  unfold colorAtSpec
  rw [if_neg (by rintro ⟨hA, hB⟩; norm_num at hB; linarith),
    if_neg (by rintro ⟨hA, hB⟩; norm_num at hA; linarith),
    if_neg (by rintro ⟨hA, hB⟩; norm_num at hA; linarith),
    if_neg (not_lt.mpr (by linarith)), if_pos (by linarith)]

/-- Spec-side evaluation: `0.465 ≤ t ≤ 0.535` blends entries 1 and 2. -/
theorem colorAtSpec_w1 {t : ℚ} (palette : Fin 4 → RGB) (h1 : 93/200 ≤ t) (h2 : t ≤ 107/200) :
    colorAtSpec palette t =
      blendRGB (palette 1) (palette 2) (smoothstep ((t - 93/200) / (7/100))) := by
  unfold colorAtSpec
  rw [if_neg (by rintro ⟨hA, hB⟩; norm_num at hB; linarith),
    if_pos (by constructor <;> norm_num <;> linarith)]
  norm_num

/-- Spec-side evaluation: `0.535 < t < 0.715` gives `palette[2]`. -/
theorem colorAtSpec_band2 {t : ℚ} (palette : Fin 4 → RGB) (h1 : 107/200 < t) (h2 : t < 143/200) :
    colorAtSpec palette t = palette 2 := by
  unfold colorAtSpec
  rw [if_neg (by rintro ⟨hA, hB⟩; norm_num at hB; linarith),
    if_neg (by rintro ⟨hA, hB⟩; norm_num at hB; linarith),
    if_neg (by rintro ⟨hA, hB⟩; norm_num at hA; linarith),
    if_neg (not_lt.mpr (by linarith)), if_neg (not_lt.mpr (by linarith)),
    if_pos (by linarith)]

/-- Spec-side evaluation: `0.715 ≤ t ≤ 0.785` blends entries 2 and 3. -/
theorem colorAtSpec_w2 {t : ℚ} (palette : Fin 4 → RGB) (h1 : 143/200 ≤ t) (h2 : t ≤ 157/200) :
    colorAtSpec palette t =
      blendRGB (palette 2) (palette 3) (smoothstep ((t - 143/200) / (7/100))) := by
  unfold colorAtSpec
  rw [if_neg (by rintro ⟨hA, hB⟩; norm_num at hB; linarith),
    if_neg (by rintro ⟨hA, hB⟩; norm_num at hB; linarith),
    if_pos (by constructor <;> norm_num <;> linarith)]
  norm_num

/-- Spec-side evaluation: `0.785 < t` gives `palette[3]`. -/
theorem colorAtSpec_high {t : ℚ} (palette : Fin 4 → RGB) (h : 157/200 < t) :
    colorAtSpec palette t = palette 3 := by
  unfold colorAtSpec
  rw [if_neg (by rintro ⟨hA, hB⟩; norm_num at hB; linarith),
    if_neg (by rintro ⟨hA, hB⟩; norm_num at hB; linarith),
    if_neg (by rintro ⟨hA, hB⟩; norm_num at hB; linarith),
    if_neg (not_lt.mpr (by linarith)), if_neg (not_lt.mpr (by linarith)),
    if_neg (not_lt.mpr (by linarith))]

/-- C3: the color interpolator `lerpColors` agrees with the banded-smoothstep
reference definition `colorAtSpec` on every 4-entry integer RGB palette and
every `t ∈ [0,1]`; in particular `lerpColors palette 0 = palette[0]` and
`lerpColors palette 1 = palette[3]`. -/
theorem c3_lerpColors_matches_spec (palette : Fin 4 → RGB) :
    (∀ t : ℚ, 0 ≤ t → t ≤ 1 → lerpColors palette t = colorAtSpec palette t) ∧
    lerpColors palette 0 = palette 0 ∧ lerpColors palette 1 = palette 3 := by
  refine ⟨?_, lerpColors_low palette (by norm_num), lerpColors_high palette (by norm_num)⟩
  intro t h0 h1
  rcases lt_or_le t (43/200) with hA | hA
  · rw [lerpColors_low palette hA.le, colorAtSpec_low palette hA]
  rcases eq_or_lt_of_le hA with hE | hE
  · rw [← hE, lerpColors_low palette (le_refl _), colorAtSpec_w0 palette (le_refl _) (by norm_num)]
    norm_num [smoothstep]
    exact (blendRGB_zero _ _).symm
  rcases le_or_lt t (57/200) with hB | hB
  · rw [lerpColors_w0 palette hE hB, colorAtSpec_w0 palette hA hB]
  rcases lt_or_le t (93/200) with hC | hC
  · rw [lerpColors_band1 palette hB hC.le, colorAtSpec_band1 palette hB hC]
  rcases eq_or_lt_of_le hC with hE2 | hE2
  · rw [← hE2, lerpColors_band1 palette (by norm_num) (le_refl _),
      colorAtSpec_w1 palette (le_refl _) (by norm_num)]
    norm_num [smoothstep]
    exact (blendRGB_zero _ _).symm
  rcases le_or_lt t (107/200) with hD | hD
  · rw [lerpColors_w1 palette hE2 hD, colorAtSpec_w1 palette hC hD]
  rcases lt_or_le t (143/200) with hF | hF
  · rw [lerpColors_band2 palette hD hF.le, colorAtSpec_band2 palette hD hF]
  rcases eq_or_lt_of_le hF with hE3 | hE3
  · rw [← hE3, lerpColors_band2 palette (by norm_num) (le_refl _),
      colorAtSpec_w2 palette (le_refl _) (by norm_num)]
    norm_num [smoothstep]
    exact (blendRGB_zero _ _).symm
  rcases le_or_lt t (157/200) with hG | hG
  · rw [lerpColors_w2 palette hE3 hG, colorAtSpec_w2 palette hF hG]
  · rw [lerpColors_high palette hG, colorAtSpec_high palette hG]

/-- Witness for C3 at the concrete track palette and `t = 1/2`. -/
theorem c3_lerpColors_matches_spec_witness :
    lerpColors TRACK_RGB (1/2) = colorAtSpec TRACK_RGB (1/2) ∧
    lerpColors TRACK_RGB 0 = TRACK_RGB 0 ∧ lerpColors TRACK_RGB 1 = TRACK_RGB 3 :=
  ⟨(c3_lerpColors_matches_spec TRACK_RGB).1 (1/2) (by norm_num) (by norm_num),
   (c3_lerpColors_matches_spec TRACK_RGB).2⟩

/-! ## Animation state and the per-frame tick -/

/-- The day-backward crossfade state `dayTransitionRef.current`:
`{ fromColor, fade: 0..1 }`. -/
structure Crossfade where
  fromColor : RGB
  fade : ℝ

/-- The mutable animation refs of the component:
`displayRef`, `targetRef`, `dayTransitionRef`, `prevDayNumRef`. -/
structure PillState where
  displayed : ℝ
  target : ℝ
  trans : Option Crossfade
  prevDayNum : ℤ

/-- The crossfade advance step at the top of `tick`:
`trans.fade = Math.min(trans.fade + dt * 2.5, 1); if (trans.fade >= 1)
dayTransitionRef.current = null`, guarded by `trans && trans.fade < 1`. -/
noncomputable def advanceTrans : Option Crossfade → ℝ → Option Crossfade
  | none, _ => none
  | some c, dt =>
    if c.fade < 1 then
      if 1 ≤ min (c.fade + dt * 2.5) 1 then none
      else some ⟨c.fromColor, min (c.fade + dt * 2.5) 1⟩
    else some c

/-- The easing step of `tick` on `displayRef.current`: snap when
`diff < -0.3`, otherwise `displayed += diff * (1 - Math.exp(-12 * dt))`;
the source then overwrites the eased value with `target` when
`|diff| < 0.001`, expressed here by testing that condition first
(the eased value is dead in that case). -/
noncomputable def easeDisplayed (current target dt : ℝ) : ℝ :=
  if target - current < -0.3 then target
  else if |target - current| < 0.001 then target
  else current + (target - current) * (1 - Real.exp (-12 * dt))

/-- One frame of the rAF loop `tick`, restricted to its state mutations:
advance the crossfade, then ease `displayed` toward `target`. -/
noncomputable def tick (s : PillState) (dt : ℝ) : PillState :=
  { displayed := easeDisplayed s.displayed s.target dt,
    target := s.target,
    trans := advanceTrans s.trans dt,
    prevDayNum := s.prevDayNum }

/-- The day-backward detection effect (`useEffect` on
`[dayNumber, progress]`): when the observed day number changed and
decreased, snap `displayed`/`target` to `progress` and start a crossfade
from the interpolator's color at `t = 0`; on any change record the new
day number. -/
def observeDay (s : PillState) (dayNumber : ℤ) (progress : ℝ) : PillState :=
  if dayNumber ≠ s.prevDayNum then
    if dayNumber < s.prevDayNum then
      { displayed := progress, target := progress,
        trans := some ⟨lerpColors TRACK_RGB 0, 0⟩, prevDayNum := dayNumber }
    else { s with prevDayNum := dayNumber }
  else s

/-- C1: in the per-frame tick, if `diff = target - displayed < -0.3`, a
single tick sets `displayed` equal to `target` exactly, with no
fractional easing step. -/
theorem c1_snap_on_large_backward (s : PillState) (dt : ℝ)
    (h : s.target - s.displayed < -0.3) : (tick s dt).displayed = s.target := by
  show easeDisplayed s.displayed s.target dt = s.target
  unfold easeDisplayed
  rw [if_pos h]

/-- Witness for C1: with `displayed = 0.9`, `target = 0.5`, one tick yields
`displayed = 0.5`. -/
theorem c1_snap_on_large_backward_witness :
    (tick ⟨0.9, 0.5, none, 1⟩ 0.016).displayed = 0.5 :=
  c1_snap_on_large_backward ⟨0.9, 0.5, none, 1⟩ 0.016 (by norm_num)

/-- C4: when the observed day index decreases, `displayed` and `target`
are both snapped to the new `progress` and a crossfade is created with
`fade = 0` and `fromColor` the interpolator's color at `t = 0`; when the
day index increases or stays the same, no crossfade is created and
`displayed` is untouched. -/
theorem c4_day_backward_transition (s : PillState) (d : ℤ) (p : ℝ) :
    (d < s.prevDayNum →
      observeDay s d p =
        ⟨p, p, some ⟨lerpColors TRACK_RGB 0, 0⟩, d⟩) ∧
    (s.prevDayNum ≤ d →
      (observeDay s d p).trans = s.trans ∧
      (observeDay s d p).displayed = s.displayed) := by
  constructor
  · intro h
    unfold observeDay
    rw [if_pos h.ne, if_pos h]
  · intro h
    unfold observeDay
    by_cases hd : d = s.prevDayNum
    · rw [if_neg (not_not_intro hd)]
      exact ⟨rfl, rfl⟩
    · rw [if_pos hd, if_neg (not_lt.mpr h)]
      exact ⟨rfl, rfl⟩

/-- Witness for C4: a backward day change (2 → 1) snaps both values to the
new progress and opens a crossfade; a forward change (2 → 3) leaves the
crossfade absent and `displayed` unchanged. -/
theorem c4_day_backward_transition_witness :
    observeDay ⟨0.2, 0.2, none, 2⟩ 1 0.8 =
      ⟨0.8, 0.8, some ⟨lerpColors TRACK_RGB 0, 0⟩, 1⟩ ∧
    (observeDay ⟨0.2, 0.2, none, 2⟩ 3 0.8).trans = none ∧
    (observeDay ⟨0.2, 0.2, none, 2⟩ 3 0.8).displayed = 0.2 :=
  ⟨(c4_day_backward_transition ⟨0.2, 0.2, none, 2⟩ 1 0.8).1 (by norm_num),
   ((c4_day_backward_transition ⟨0.2, 0.2, none, 2⟩ 3 0.8).2 (by norm_num)).1,
   ((c4_day_backward_transition ⟨0.2, 0.2, none, 2⟩ 3 0.8).2 (by norm_num)).2⟩

/-- C5: while a crossfade is active (`fade < 1`), a tick with elapsed time
`dt ≥ 0` increases `fade` by exactly `dt * 2.5`; the state is discarded
exactly when the incremented fade reaches 1; any surviving fade is
monotonically non-decreasing and never exceeds 1; a discarded (absent)
state is never recreated by the tick. -/
theorem c5_crossfade_advance (s : PillState) (dt : ℝ) (hdt : 0 ≤ dt) :
    (s.trans = none → (tick s dt).trans = none) ∧
    (∀ c : Crossfade, s.trans = some c → c.fade < 1 →
      (c.fade + dt * 2.5 < 1 →
        (tick s dt).trans = some ⟨c.fromColor, c.fade + dt * 2.5⟩) ∧
      (1 ≤ c.fade + dt * 2.5 → (tick s dt).trans = none) ∧
      (∀ c' : Crossfade, (tick s dt).trans = some c' →
        c.fade ≤ c'.fade ∧ c'.fade ≤ 1)) := by
  have htr : (tick s dt).trans = advanceTrans s.trans dt := rfl
  constructor
  · intro h
    rw [htr, h]
    rfl
  · intro c hc hlt
    rw [htr, hc]
    simp only [advanceTrans]
    rw [if_pos hlt]
    have hmono : c.fade ≤ c.fade + dt * 2.5 := by nlinarith
    refine ⟨?_, ?_, ?_⟩
    · intro hsum
      rw [if_neg (by rw [min_eq_left hsum.le]; exact not_le.mpr hsum),
        min_eq_left hsum.le]
    · intro hsum
      rw [if_pos (by rw [min_eq_right hsum])]
    · intro c' hc'
      by_cases hge : 1 ≤ min (c.fade + dt * 2.5) 1
      · rw [if_pos hge] at hc'
        exact absurd hc' (by simp)
      · rw [if_neg hge] at hc'
        have : c' = ⟨c.fromColor, min (c.fade + dt * 2.5) 1⟩ := by
          exact (Option.some_injective _ hc').symm
        rw [this]
        exact ⟨le_min hmono hlt.le, min_le_right _ _⟩

/-- Witness for C5: a fresh crossfade (`fade = 0`) advanced by
`dt = 0.016` survives with fade exactly `0 + 0.016 * 2.5`. -/
theorem c5_crossfade_advance_witness :
    (tick ⟨0, 0, some ⟨(0, 0, 0), 0⟩, 1⟩ 0.016).trans =
      some ⟨(0, 0, 0), (0 : ℝ) + 0.016 * 2.5⟩ :=
  (((c5_crossfade_advance ⟨0, 0, some ⟨(0, 0, 0), 0⟩, 1⟩ 0.016 (by norm_num)).2
    ⟨(0, 0, 0), 0⟩ rfl (by norm_num)).1 (by norm_num))

/-- C10: in the non-snap branch (`diff ≥ -0.3`) with `0 < dt ≤ 0.05`, the
tick never overshoots: the new `displayed` lies between the old
`displayed` and `target` inclusive; consequently it stays in `[0,1]`
whenever both were. -/
theorem c10_no_overshoot (s : PillState) (dt : ℝ)
    (h1 : -(0.3 : ℝ) ≤ s.target - s.displayed) (h2 : 0 < dt) (h3 : dt ≤ 0.05) :
    (min s.displayed s.target ≤ (tick s dt).displayed ∧
      (tick s dt).displayed ≤ max s.displayed s.target) ∧
    (0 ≤ s.displayed → s.displayed ≤ 1 → 0 ≤ s.target → s.target ≤ 1 →
      0 ≤ (tick s dt).displayed ∧ (tick s dt).displayed ≤ 1) := by
  have hd : (tick s dt).displayed = easeDisplayed s.displayed s.target dt := rfl
  have hmain : min s.displayed s.target ≤ (tick s dt).displayed ∧
      (tick s dt).displayed ≤ max s.displayed s.target := by
    rw [hd]
    unfold easeDisplayed
    rw [if_neg (not_lt.mpr (by linarith))]
    by_cases hsmall : |s.target - s.displayed| < 0.001
    · rw [if_pos hsmall]
      exact ⟨min_le_right _ _, le_max_right _ _⟩
    · rw [if_neg hsmall]
      have hexp0 : 0 < Real.exp (-12 * dt) := Real.exp_pos _
      have hexp1 : Real.exp (-12 * dt) < 1 := by
        have : Real.exp (-12 * dt) < Real.exp 0 := Real.exp_lt_exp.mpr (by linarith)
        simpa using this
      rcases le_total s.displayed s.target with hle | hle
      · rw [min_eq_left hle, max_eq_right hle]
        constructor <;> nlinarith
      · rw [min_eq_right hle, max_eq_left hle]
        constructor <;> nlinarith
  refine ⟨hmain, fun h0d h1d h0t h1t => ?_⟩
  exact ⟨le_trans (le_min h0d h0t) hmain.1, le_trans hmain.2 (max_le h1d h1t)⟩

/-- Witness for C10 at `displayed = 0.2`, `target = 0.5`, `dt = 0.016`. -/
theorem c10_no_overshoot_witness :
    (min (0.2 : ℝ) 0.5 ≤ (tick ⟨0.2, 0.5, none, 1⟩ 0.016).displayed ∧
      (tick ⟨0.2, 0.5, none, 1⟩ 0.016).displayed ≤ max (0.2 : ℝ) 0.5) ∧
    (0 ≤ (0.2 : ℝ) → (0.2 : ℝ) ≤ 1 → 0 ≤ (0.5 : ℝ) → (0.5 : ℝ) ≤ 1 →
      0 ≤ (tick ⟨0.2, 0.5, none, 1⟩ 0.016).displayed ∧
      (tick ⟨0.2, 0.5, none, 1⟩ 0.016).displayed ≤ 1) :=
  c10_no_overshoot ⟨0.2, 0.5, none, 1⟩ 0.016 (by norm_num) (by norm_num) (by norm_num)

/-! ## C2: the concrete easing run `displayed = 0 → target = 0.5` at
`dt = 0.016` -/

/-- The per-tick decay factor `e^(-12 · 0.016)` of the easing loop. -/
noncomputable def easeR : ℝ := Real.exp (-12 * 0.016)

/-- The state sequence of the normal-easing scenario: start at
`displayed = 0`, `target = 0.5`, tick every 16 ms. -/
noncomputable def c2State : ℕ → PillState
  | 0 => ⟨0, 1/2, none, 1⟩
  | k + 1 => tick (c2State k) 0.016

theorem easeR_pos : 0 < easeR := Real.exp_pos _

theorem easeR_lt_one : easeR < 1 := by
  have h : Real.exp (-12 * 0.016) < Real.exp 0 := Real.exp_lt_exp.mpr (by norm_num)
  simpa [easeR] using h

theorem easeR_pow_le_one (k : ℕ) : easeR ^ k ≤ 1 :=
  pow_le_one₀ easeR_pos.le easeR_lt_one.le

theorem easeR_pow_32 : 1/500 ≤ easeR ^ 32 := by
  have h32 : easeR ^ 32 = Real.exp (-(6.144 : ℝ)) := by
    rw [easeR, ← Real.exp_nat_mul]
    norm_num
  have hup : Real.exp 6.144 ≤ 500 := by
    have hsplit : Real.exp (6.144 : ℝ) = Real.exp 6 * Real.exp 0.144 := by
      rw [← Real.exp_add]
      norm_num
    have h6 : Real.exp 6 ≤ 403.42881 := by
      have h1 : Real.exp (6 : ℝ) = Real.exp 1 ^ 6 := by
        rw [← Real.exp_nat_mul]
        norm_num
      rw [h1]
      calc Real.exp 1 ^ 6 ≤ (2.7182818286 : ℝ) ^ 6 :=
            pow_le_pow_left₀ (Real.exp_pos 1).le Real.exp_one_lt_d9.le 6
        _ ≤ 403.42881 := by norm_num
    have h0144 : Real.exp 0.144 ≤ (0.856 : ℝ)⁻¹ := by
      have hlow : (0.856 : ℝ) ≤ Real.exp (-0.144) := by
        have h := Real.add_one_le_exp (-0.144 : ℝ)
        linarith
      have hinv : Real.exp (0.144 : ℝ) = (Real.exp (-0.144 : ℝ))⁻¹ := by
        rw [← Real.exp_neg, neg_neg]
      rw [hinv]
      exact inv_anti₀ (by norm_num) hlow
    calc Real.exp (6.144 : ℝ) = Real.exp 6 * Real.exp 0.144 := hsplit
      _ ≤ 403.42881 * (0.856 : ℝ)⁻¹ :=
          mul_le_mul h6 h0144 (Real.exp_pos _).le (by norm_num)
      _ ≤ 500 := by norm_num
  rw [h32, Real.exp_neg, one_div]
  exact inv_anti₀ (Real.exp_pos _) hup

theorem easeR_pow_33 : easeR ^ 33 < 1/500 := by
  have h33 : easeR ^ 33 = Real.exp (-(6.336 : ℝ)) := by
    rw [easeR, ← Real.exp_nat_mul]
    norm_num
  have hlow : (500 : ℝ) < Real.exp 6.336 := by
    have hsplit : Real.exp (6.336 : ℝ) = Real.exp 6 * Real.exp 0.336 := by
      rw [← Real.exp_add]
      norm_num
    have h6 : (403.4287 : ℝ) ≤ Real.exp 6 := by
      have h1 : Real.exp (6 : ℝ) = Real.exp 1 ^ 6 := by
        rw [← Real.exp_nat_mul]
        norm_num
      rw [h1]
      calc (403.4287 : ℝ) ≤ (2.7182818283 : ℝ) ^ 6 := by norm_num
        _ ≤ Real.exp 1 ^ 6 := pow_le_pow_left₀ (by norm_num) Real.exp_one_gt_d9.le 6
    have h0336 : (1.336 : ℝ) ≤ Real.exp 0.336 := by
      have h := Real.add_one_le_exp (0.336 : ℝ)
      linarith
    calc (500 : ℝ) < 403.4287 * 1.336 := by norm_num
      _ ≤ Real.exp 6 * Real.exp 0.336 :=
          mul_le_mul h6 h0336 (by norm_num) (Real.exp_pos _).le
      _ = Real.exp (6.336 : ℝ) := hsplit.symm
  rw [h33, Real.exp_neg, one_div]
  exact inv_strictAnti₀ (by norm_num) hlow

theorem easeR_pow_lb (k : ℕ) (hk : k ≤ 32) : 1/500 ≤ easeR ^ k :=
  le_trans easeR_pow_32 (pow_le_pow_of_le_one easeR_pos.le easeR_lt_one.le hk)

theorem c2State_target (k : ℕ) : (c2State k).target = 1/2 := by
  induction k with
  | zero => rfl
  | succ k ih => exact ih

/-- Closed form of the run: for the first 33 ticks the distance to the
target decays geometrically, `displayed k = 1/2 - (1/2) · easeR ^ k`. -/
theorem c2_closed_form : ∀ k, k ≤ 33 → (c2State k).displayed = 1/2 - 1/2 * easeR ^ k := by
  intro k
  induction k with
  | zero =>
    intro _
    norm_num [c2State]
  | succ k ih =>
    intro hk
    have ihv := ih (by omega)
    have hlb : 1/500 ≤ easeR ^ k := easeR_pow_lb k (by omega)
    have hpow0 : 0 < easeR ^ k := pow_pos easeR_pos k
    have hstep : (c2State (k+1)).displayed =
        easeDisplayed (c2State k).displayed (c2State k).target 0.016 := rfl
    rw [hstep, c2State_target, ihv]
    unfold easeDisplayed
    rw [show (1/2 : ℝ) - (1/2 - 1/2 * easeR ^ k) = 1/2 * easeR ^ k from by ring]
    rw [if_neg (not_lt.mpr (by nlinarith)),
      if_neg (not_lt.mpr (by rw [abs_of_nonneg (by positivity)]; norm_num; linarith))]
    have he : Real.exp (-12 * 0.016) = easeR := rfl
    rw [he, pow_succ]
    ring

/-- Tick 34 snaps to the target exactly: the incoming difference
`(1/2) · easeR ^ 33` is below 0.001. -/
theorem c2_exact_at_34 : (c2State 34).displayed = 1/2 := by
  have h33 := c2_closed_form 33 (le_refl _)
  have hub := easeR_pow_33
  have hpow0 : 0 < easeR ^ 33 := pow_pos easeR_pos _
  have hstep : (c2State 34).displayed =
      easeDisplayed (c2State 33).displayed (c2State 33).target 0.016 := rfl
  rw [hstep, c2State_target, h33]
  unfold easeDisplayed
  rw [show (1/2 : ℝ) - (1/2 - 1/2 * easeR ^ 33) = 1/2 * easeR ^ 33 from by ring]
  rw [if_neg (not_lt.mpr (by nlinarith)),
    if_pos (by rw [abs_of_nonneg (by positivity)]; norm_num; linarith)]

theorem easeDisplayed_fixed (x dt : ℝ) : easeDisplayed x x dt = x := by
  unfold easeDisplayed
  rw [if_neg (by norm_num), if_pos (by norm_num)]

theorem c2_stable (j : ℕ) : (c2State (34 + j)).displayed = 1/2 := by
  induction j with
  | zero => exact c2_exact_at_34
  | succ j ih =>
    have hstep : (c2State (34 + j + 1)).displayed =
        easeDisplayed (c2State (34 + j)).displayed (c2State (34 + j)).target 0.016 := rfl
    rw [show 34 + (j + 1) = 34 + j + 1 from rfl, hstep, c2State_target, ih,
      easeDisplayed_fixed]

theorem c2_le_half (k : ℕ) : (c2State k).displayed ≤ 1/2 := by
  rcases le_or_lt k 33 with hk | hk
  · rw [c2_closed_form k hk]
    nlinarith [pow_pos easeR_pos k]
  · obtain ⟨j, rfl⟩ : ∃ j, k = 34 + j := ⟨k - 34, by omega⟩
    rw [c2_stable j]

theorem c2_strict_mono (k : ℕ) (hk : k < 34) :
    (c2State k).displayed < (c2State (k+1)).displayed := by
  rcases Nat.lt_or_ge k 33 with hk33 | hk33
  · rw [c2_closed_form k (by omega), c2_closed_form (k+1) (by omega)]
    have h1 : easeR ^ (k+1) < easeR ^ k := by
      rw [pow_succ]
      nlinarith [pow_pos easeR_pos k, easeR_lt_one, easeR_pos]
    linarith
  · have hkeq : k = 33 := by omega
    subst hkeq
    rw [c2_closed_form 33 (le_refl _), c2_exact_at_34]
    nlinarith [pow_pos easeR_pos 33]

theorem c2_tick_formula (k : ℕ) (hk : k ≤ 32) :
    (c2State (k+1)).displayed =
      (c2State k).displayed + (1/2 - (c2State k).displayed) * (1 - easeR) := by
  rw [c2_closed_form (k+1) (by omega), c2_closed_form k (by omega), pow_succ]
  ring

/-- C2 (amended): from `displayed = 0`, `target = 0.5`, ticking at
`dt = 0.016`, each of the first 33 ticks advances `displayed` by
`diff * (1 - e^(-12·0.016))`; `displayed` increases strictly
monotonically toward 0.5, never exceeds it, and becomes exactly equal to
the target at tick 34 — about 544 ms of simulated time, not ≈400 ms —
via the rule that snaps when `|diff| < 0.001`. -/
theorem c2_easing_convergence :
    (∀ k, k ≤ 32 → (c2State (k+1)).displayed =
      (c2State k).displayed +
        (1/2 - (c2State k).displayed) * (1 - Real.exp (-12 * 0.016))) ∧
    (∀ k, k < 34 → (c2State k).displayed < (c2State (k+1)).displayed) ∧
    (∀ k, (c2State k).displayed ≤ 1/2) ∧
    (c2State 34).displayed = 1/2 :=
  ⟨fun k hk => c2_tick_formula k hk, c2_strict_mono, c2_le_half, c2_exact_at_34⟩

/-- Witness for C2 at the first tick. -/
theorem c2_easing_convergence_witness :
    (c2State 1).displayed =
      (c2State 0).displayed +
        (1/2 - (c2State 0).displayed) * (1 - Real.exp (-12 * 0.016)) ∧
    (c2State 0).displayed < (c2State 1).displayed :=
  ⟨c2_easing_convergence.1 0 (by norm_num), c2_easing_convergence.2.1 0 (by norm_num)⟩

/-- Counterexample for C2 as stated: after 25 ticks of 16 ms — 400 ms of
simulated time — `displayed` is not equal to the target and is still at
least 0.001 away from it, so the run does not settle within ≈400 ms. -/
theorem c2_not_settled_at_400ms :
    (c2State 25).displayed ≠ 1/2 ∧
    (0.001 : ℝ) ≤ 1/2 - (c2State 25).displayed := by
  have h25 := c2_closed_form 25 (by omega)
  have hlb : 1/500 ≤ easeR ^ 25 := easeR_pow_lb 25 (by omega)
  have hpow0 : 0 < easeR ^ 25 := pow_pos easeR_pos _
  constructor
  · rw [h25]
    intro hq
    nlinarith
  · rw [h25]
    norm_num
    linarith

/-! ## Path sampling (C8) -/

/-- A sample `{x, y, t}` pushed by the path sampling effect.  `t` is
`none` when the JS computation `i / n` is not a finite number
(`0/0 = NaN` for a zero-length path). -/
structure SamplePoint where
  x : ℚ
  y : ℚ
  t : Option ℚ
deriving DecidableEq

/-- JS division on numbers: `none` models the non-finite result
(`NaN` or `±Infinity`) produced when the denominator is `0`. -/
def jsDiv (a b : ℚ) : Option ℚ := if b = 0 then none else some (a / b)

/-- The body of the sampling loop at index `i`: `t = i / n` and the
position queried from the host path measurement `path` at length
`t * totalLen` (`path` abstracts `getPointAtLength`; its argument is
`none` when the queried length is not a finite number). -/
def sampleAt (path : Option ℚ → ℚ × ℚ) (totalLen : ℚ) (n : ℤ) (i : ℕ) : SamplePoint :=
  ⟨(path ((jsDiv (i : ℚ) (n : ℚ)).map (fun q => q * totalLen))).1,
   (path ((jsDiv (i : ℚ) (n : ℚ)).map (fun q => q * totalLen))).2,
   jsDiv (i : ℚ) (n : ℚ)⟩

/-- The one-time path sampling effect: `n = Math.ceil(totalLen / 1.4)`;
for `i = 0..n` push the sample `{x, y, t}` with `t = i / n`. -/
def samplePoints (path : Option ℚ → ℚ × ℚ) (totalLen : ℚ) : List SamplePoint :=
  (List.range ((⌈totalLen / (1.4 : ℚ)⌉).toNat + 1)).map
    (sampleAt path totalLen ⌈totalLen / (1.4 : ℚ)⌉)

/-- C8 (amended): sampling never fails and yields `⌈L/1.4⌉ + 1` ordered
samples (one sample for a zero-length path), each sample's `t` being the
JS quotient `i / n`; when `L > 0` every `t` is a rational in `[0,1]`,
but when `L = 0` the lone sample's `t` is `0/0 = NaN` (modelled `none`),
which is not a number in `[0,1]`. -/
theorem c8_sampling (path : Option ℚ → ℚ × ℚ) (L : ℚ) (hL : 0 ≤ L) :
    (samplePoints path L).length = (⌈L / (1.4 : ℚ)⌉).toNat + 1 ∧
    (∀ i (hi : i < (samplePoints path L).length),
      ((samplePoints path L).get ⟨i, hi⟩).t = jsDiv (i : ℚ) ((⌈L / (1.4 : ℚ)⌉ : ℤ) : ℚ)) ∧
    (0 < L → ∀ sp ∈ samplePoints path L, ∃ q : ℚ, sp.t = some q ∧ 0 ≤ q ∧ q ≤ 1) ∧
    (L = 0 → (samplePoints path L).map (fun sp => sp.t) = [none]) := by
  refine ⟨?_, ?_, ?_, ?_⟩
  · rw [samplePoints, List.length_map, List.length_range]
  · intro i hi
    simp only [samplePoints, List.get_eq_getElem, List.getElem_map, List.getElem_range]
    rfl
  · intro hpos sp hsp
    simp only [samplePoints, List.mem_map, List.mem_range] at hsp
    obtain ⟨i, hi, rfl⟩ := hsp
    have hn : (0 : ℤ) < ⌈L / (1.4 : ℚ)⌉ := Int.ceil_pos.mpr (by positivity)
    have hile : (i : ℤ) ≤ ⌈L / (1.4 : ℚ)⌉ := by
      generalize hc : (⌈L / (1.4 : ℚ)⌉ : ℤ) = c at hi hn
      omega
    have hnq : (0 : ℚ) < ((⌈L / (1.4 : ℚ)⌉ : ℤ) : ℚ) := by exact_mod_cast hn
    refine ⟨(i : ℚ) / ((⌈L / (1.4 : ℚ)⌉ : ℤ) : ℚ), ?_, by positivity, ?_⟩
    · simp only [sampleAt, jsDiv, if_neg hnq.ne.symm]
    · rw [div_le_one hnq]
      exact_mod_cast hile
  · intro h0
    subst h0
    have hn0 : (⌈(0 : ℚ) / (1.4 : ℚ)⌉ : ℤ) = 0 := by norm_num
    have hr1 : List.range 1 = [0] := rfl
    simp only [samplePoints, hn0, Int.toNat_zero, hr1, List.map_cons, List.map_nil]
    simp [sampleAt, jsDiv]

/-- Witness for C8 at `L = 2.8` (two 1.4-unit steps, hence three samples). -/
theorem c8_sampling_witness :
    (samplePoints (fun _ => ((0 : ℚ), (0 : ℚ))) (2.8 : ℚ)).length =
      (⌈(2.8 : ℚ) / (1.4 : ℚ)⌉).toNat + 1 :=
  (c8_sampling (fun _ => ((0 : ℚ), (0 : ℚ))) (2.8 : ℚ) (by norm_num)).1

/-- C8 counterexample: for a zero-length path the sampler still produces
one sample (no failure), but that sample's `t` is `0/0 = NaN` rather
than a number in `[0,1]`, refuting "each sample satisfies `t ∈ [0,1]`". -/
theorem c8_zero_length_counterexample :
    (samplePoints (fun _ => ((0 : ℚ), (0 : ℚ))) 0).length = 1 ∧
    ¬ (∀ sp ∈ samplePoints (fun _ => ((0 : ℚ), (0 : ℚ))) 0,
        ∃ q : ℚ, sp.t = some q ∧ 0 ≤ q ∧ q ≤ 1) := by
  have heval : samplePoints (fun _ => ((0 : ℚ), (0 : ℚ))) 0 = [⟨0, 0, none⟩] := by
    have hn0 : (⌈(0 : ℚ) / (1.4 : ℚ)⌉ : ℤ) = 0 := by norm_num
    have hr1 : List.range 1 = [0] := rfl
    simp only [samplePoints, hn0, Int.toNat_zero, hr1, List.map_cons, List.map_nil]
    simp [sampleAt, jsDiv]
  rw [heval]
  refine ⟨rfl, fun h => ?_⟩
  obtain ⟨q, hq, -, -⟩ := h ⟨0, 0, none⟩ (by simp)
  exact Option.noConfusion hq

/-! ## Label transition machine (C6, C7, C9)

Timers are modelled explicitly: the effect cleanup returned to React can
clear the pending exit timer (`clearTimeout(exitTimer)`), but the inner
`return () => clearTimeout(enterTimer)` of the source is returned to the
`setTimeout` machinery, which ignores it — so scheduled enter timers can
never be cancelled and are kept in a list. -/

/-- The label phase enum `"idle" | "exiting" | "entering"`. -/
inductive TextPhase
  | idle
  | exiting
  | entering
deriving DecidableEq

/-- The pending exit timer with its 240 ms deadline and the day/distance
props captured by the effect closure. -/
structure ExitTimer where
  fireAt : ℕ
  day : ℤ
  dist : String
deriving DecidableEq

/-- The label machine state: phase, displayed label values, last observed
day number, the cancellable exit timer and the (uncancellable) pending
enter-timer deadlines. -/
structure LabelState where
  phase : TextPhase
  displayDay : ℤ
  displayDist : String
  prevDay : ℤ
  exitT : Option ExitTimer
  enterTs : List ℕ
deriving DecidableEq

/-- One run of the label-transition effect at time `now` (ms), after its
deps `[dayNumber, distance]` changed: React first runs the previous
cleanup, clearing any pending exit timer (pending enter timers survive —
their cleanup closure was discarded); then the body: if the day number
is unchanged it returns early, otherwise it records the new day, enters
`exiting`, and schedules the exit timer for `now + 240`. -/
def propsUpdate (now : ℕ) (s : LabelState) (dayNumber : ℤ) (distance : String) :
    LabelState :=
  if dayNumber = s.prevDay then { s with exitT := none }
  else { s with exitT := some ⟨now + 240, dayNumber, distance⟩,
                prevDay := dayNumber, phase := TextPhase.exiting }

/-- Deliver the timers due at instant `t`: a due exit timer swaps the
displayed label to its captured values, moves to `entering`, and
schedules its enter timer 280 ms later; a due enter timer sets the phase
back to `idle` (unconditionally, as in the source callback). -/
def fireDue (s : LabelState) (t : ℕ) : LabelState :=
  let s1 := match s.exitT with
    | some e =>
      if e.fireAt = t then
        { phase := TextPhase.entering, displayDay := e.day, displayDist := e.dist,
          prevDay := s.prevDay, exitT := none,
          enterTs := s.enterTs ++ [e.fireAt + 280] }
      else s
    | none => s
  if t ∈ s1.enterTs then
    { s1 with phase := TextPhase.idle, enterTs := s1.enterTs.filter (fun x => x ≠ t) }
  else s1

/-- The distance-only effect (`useEffect` on
`[distance, textPhase, dayNumber, displayDay]`): while idle with the day
index matching the displayed day, overwrite the displayed distance. -/
def distUpdate (s : LabelState) (dayNumber : ℤ) (distance : String) : LabelState :=
  if s.phase = TextPhase.idle ∧ dayNumber = s.displayDay then
    { s with displayDist := distance }
  else s

/-- C6: a day-index change observed while idle (no pending timers) moves
the phase to `exiting` immediately without touching the displayed label;
nothing further happens until `now + 240`, when the label is swapped to
the new values and the phase becomes `entering`; nothing further happens
until `now + 520`, when the phase returns to `idle`. -/
theorem c6_label_transition_timing (s : LabelState) (now : ℕ) (day : ℤ) (dist : String)
    (hidle : s.phase = TextPhase.idle) (hex : s.exitT = none) (hen : s.enterTs = [])
    (hday : day ≠ s.prevDay) :
    (propsUpdate now s day dist).phase = TextPhase.exiting ∧
    (propsUpdate now s day dist).displayDay = s.displayDay ∧
    (propsUpdate now s day dist).displayDist = s.displayDist ∧
    (∀ t, t ≠ now + 240 →
      fireDue (propsUpdate now s day dist) t = propsUpdate now s day dist) ∧
    (fireDue (propsUpdate now s day dist) (now + 240)).phase = TextPhase.entering ∧
    (fireDue (propsUpdate now s day dist) (now + 240)).displayDay = day ∧
    (fireDue (propsUpdate now s day dist) (now + 240)).displayDist = dist ∧
    (∀ t, t ≠ now + 520 →
      fireDue (fireDue (propsUpdate now s day dist) (now + 240)) t =
        fireDue (propsUpdate now s day dist) (now + 240)) ∧
    (fireDue (fireDue (propsUpdate now s day dist) (now + 240)) (now + 520)).phase =
      TextPhase.idle := by
  obtain ⟨ph, dd, ddist, pd, ex, ents⟩ := s
  simp only at hidle hex hen hday
  subst hidle hex hen
  have hA : propsUpdate now ⟨TextPhase.idle, dd, ddist, pd, none, []⟩ day dist =
      ⟨TextPhase.exiting, dd, ddist, day, some ⟨now + 240, day, dist⟩, []⟩ := by
    unfold propsUpdate
    rw [if_neg hday]
  rw [hA]
  have hB : ∀ t, t ≠ now + 240 →
      fireDue ⟨TextPhase.exiting, dd, ddist, day, some ⟨now + 240, day, dist⟩, []⟩ t =
        ⟨TextPhase.exiting, dd, ddist, day, some ⟨now + 240, day, dist⟩, []⟩ := by
    intro t ht
    unfold fireDue
    dsimp only
    rw [if_neg (show ¬ (now + 240 = t) from fun h => ht h.symm)]
    exact if_neg (List.not_mem_nil t)
  have hC : fireDue ⟨TextPhase.exiting, dd, ddist, day, some ⟨now + 240, day, dist⟩, []⟩
      (now + 240) =
      ⟨TextPhase.entering, day, dist, day, none, [now + 240 + 280]⟩ := by
    unfold fireDue
    dsimp only
    rw [if_pos (show now + 240 = now + 240 from rfl)]
    rw [if_neg (show now + 240 ∉ ([] ++ [now + 240 + 280] : List ℕ) from by
      simp only [List.nil_append, List.mem_singleton]
      omega)]
    rfl
  rw [hC]
  have hD : ∀ t, t ≠ now + 520 →
      fireDue ⟨TextPhase.entering, day, dist, day, none, [now + 240 + 280]⟩ t =
        ⟨TextPhase.entering, day, dist, day, none, [now + 240 + 280]⟩ := by
    intro t ht
    unfold fireDue
    dsimp only
    exact if_neg (show t ∉ ([now + 240 + 280] : List ℕ) from by
      simp only [List.mem_singleton]
      omega)
  have hE : (fireDue ⟨TextPhase.entering, day, dist, day, none, [now + 240 + 280]⟩
      (now + 520)).phase = TextPhase.idle := by
    unfold fireDue
    dsimp only
    rw [if_pos (show now + 520 ∈ ([now + 240 + 280] : List ℕ) from by
      simp only [List.mem_singleton])]
  exact ⟨rfl, rfl, rfl, hB, rfl, rfl, rfl, hD, hE⟩

/-- Witness for C6 at a concrete idle state and day change 1 → 2 at
`now = 0`, probing the quantified parts at `t = 100` and `t = 300`. -/
theorem c6_label_transition_timing_witness :
    (propsUpdate 0 ⟨TextPhase.idle, 1, "a", 1, none, []⟩ 2 "b").phase =
      TextPhase.exiting ∧
    fireDue (propsUpdate 0 ⟨TextPhase.idle, 1, "a", 1, none, []⟩ 2 "b") 100 =
      propsUpdate 0 ⟨TextPhase.idle, 1, "a", 1, none, []⟩ 2 "b" ∧
    (fireDue (propsUpdate 0 ⟨TextPhase.idle, 1, "a", 1, none, []⟩ 2 "b") 240).displayDay
      = 2 ∧
    (fireDue (fireDue (propsUpdate 0 ⟨TextPhase.idle, 1, "a", 1, none, []⟩ 2 "b") 240)
      520).phase = TextPhase.idle := by
  have h := c6_label_transition_timing ⟨TextPhase.idle, 1, "a", 1, none, []⟩ 0 2 "b"
    rfl rfl rfl (by norm_num)
  exact ⟨h.1, h.2.2.2.1 100 (by norm_num), h.2.2.2.2.2.1,
    h.2.2.2.2.2.2.2.2⟩

/-- C7 (failing run): day changes 1→2 at t = 0 and 2→3 at t = 400 ms.
The first cycle's enter timer (due at t = 520) survives the second
`propsUpdate` — the source's inner cleanup closure is returned to
`setTimeout` and ignored — and fires during the second cycle's `exiting`
phase, resetting the phase to `idle` while the new exit timer (due at
t = 640) is still pending.  The claim that a superseded timer is always
cancelled is violated by the code. -/
theorem c7_stale_enter_timer_fires :
    (propsUpdate 400
        (fireDue (propsUpdate 0 ⟨TextPhase.idle, 1, "d1", 1, none, []⟩ 2 "d2") 240)
        3 "d3").phase = TextPhase.exiting ∧
    (propsUpdate 400
        (fireDue (propsUpdate 0 ⟨TextPhase.idle, 1, "d1", 1, none, []⟩ 2 "d2") 240)
        3 "d3").enterTs = [520] ∧
    (fireDue (propsUpdate 400
        (fireDue (propsUpdate 0 ⟨TextPhase.idle, 1, "d1", 1, none, []⟩ 2 "d2") 240)
        3 "d3") 520).phase = TextPhase.idle ∧
    (fireDue (propsUpdate 400
        (fireDue (propsUpdate 0 ⟨TextPhase.idle, 1, "d1", 1, none, []⟩ 2 "d2") 240)
        3 "d3") 520).exitT = some ⟨640, 3, "d3"⟩ :=
  ⟨rfl, rfl, rfl, rfl⟩

/-- C9: while idle with the day index equal to the displayed day, a
distance-only update replaces the displayed distance immediately and
changes nothing else — no phase change and no timer is created. -/
theorem c9_distance_only_update (s : LabelState) (d : ℤ) (dist : String)
    (h1 : s.phase = TextPhase.idle) (h2 : d = s.displayDay) :
    (distUpdate s d dist).displayDist = dist ∧
    (distUpdate s d dist).phase = s.phase ∧
    (distUpdate s d dist).displayDay = s.displayDay ∧
    (distUpdate s d dist).exitT = s.exitT ∧
    (distUpdate s d dist).enterTs = s.enterTs := by
  unfold distUpdate
  rw [if_pos ⟨h1, h2⟩]
  exact ⟨rfl, rfl, rfl, rfl, rfl⟩

/-- Witness for C9 at a concrete idle state. -/
theorem c9_distance_only_update_witness :
    (distUpdate ⟨TextPhase.idle, 4, "old", 4, none, []⟩ 4 "new").displayDist = "new" ∧
    (distUpdate ⟨TextPhase.idle, 4, "old", 4, none, []⟩ 4 "new").phase =
      TextPhase.idle ∧
    (distUpdate ⟨TextPhase.idle, 4, "old", 4, none, []⟩ 4 "new").displayDay = 4 ∧
    (distUpdate ⟨TextPhase.idle, 4, "old", 4, none, []⟩ 4 "new").exitT = none ∧
    (distUpdate ⟨TextPhase.idle, 4, "old", 4, none, []⟩ 4 "new").enterTs = [] :=
  c9_distance_only_update ⟨TextPhase.idle, 4, "old", 4, none, []⟩ 4 "new" rfl rfl

end ProgressPill
